import Mathlib

/-!
Verification of the midibridge repository (Go, two near-duplicate source
files: `src/main.go` and `src/unnamed/part_000`).

Shallow embedding conventions:
* Go `byte` values are `Nat` (the source performs no arithmetic that could
  overflow: only `>> 4`, `& 0x0f`, copying and comparison, which agree with
  uint8 semantics on inputs below 256).
* Go byte slices are `List Nat`.
* Observable effects (log lines, device writes) are returned explicitly:
  a handler yields a pair of the log events it emits and the list of byte
  sequences it writes to the output device.
* A Go runtime panic (out-of-bounds slice expression) is modelled as
  `Option.none`: `handleCmd` evaluates `req[:len(midiCall)]`, which in Go
  panics whenever `len(req) < len(midiCall)`, so the embedded `handleCmd`
  returns `none` exactly there.
* The two source files are embedded separately (namespaces `Main` for
  `src/main.go` and `Part0` for `src/unnamed/part_000`) where both define
  the core path, so that their equivalence is a theorem, not an assumption.
-/

namespace MidiBridge

/-- The `Midi` struct common to both source files: decoded state (status)
nibble, channel nibble, note byte and velocity byte. -/
structure Midi where
  State : Nat
  Channel : Nat
  Note : Nat
  Velocity : Nat
deriving DecidableEq, Repr

/-- The command prefix constant `midiCall = "/midi"` as its five ASCII
bytes `/ m i d i`. -/
def midiCall : List Nat := [47, 109, 105, 100, 105]

/-- Log events observable on the console sink.  The two variants format
these slightly differently (`Println` versus `Printf %+v`), but the spec
scopes formatting out of the core, so both are embedded to the same
event. -/
inductive LogEvent where
  | midiNote (m : Midi)
  | notImplemented (req : List Nat)
deriving DecidableEq, Repr

/-- Effects of a handler: the log events it prints and the byte sequences
it passes to the bridge `Write` (device writes), each in program order. -/
abbrev Effects := List LogEvent × List (List Nat)

/-- Go's `dst := make([]byte, n); copy(dst, src)`: the first
`min n src.length` bytes of `src`, zero-padded to length `n`. -/
def goCopy (n : Nat) (src : List Nat) : List Nat :=
  (src ++ List.replicate (n - src.length) 0).take n

namespace Main

/-- `ToMidi` from `src/main.go`: splits the byte at offset 10 into the
state (upper) and channel (lower) nibbles, reads offset 9 as note and
offset 8 as velocity.  The Go indexing `req[10]` would panic out of
bounds, but every call site first checks `len(req) == 11`, so the
`getD` default is never exercised by the embedded callers. -/
def ToMidi (req : List Nat) : Midi :=
  { State := req.getD 10 0 >>> 4
    Channel := req.getD 10 0 &&& 0x0f
    Note := req.getD 9 0
    Velocity := req.getD 8 0 }

/-- `handleMidi` from `src/main.go`: payloads whose length is not 11 are
silently dropped; otherwise the decoded `Midi` is logged and the three
bytes `req[10], req[9], req[8]` are written to the output device. -/
def handleMidi (req : List Nat) : Effects :=
  if req.length ≠ 11 then ([], [])
  else ([LogEvent.midiNote (ToMidi req)],
        [[req.getD 10 0, req.getD 9 0, req.getD 8 0]])

/-- `handleCmd` from `src/main.go`: compares `req[:len(midiCall)]` with
the `/midi` prefix; on match it strips the prefix and calls `handleMidi`,
otherwise it prints a "not implemeted" line.  The Go slice expression
`req[:len(midiCall)]` panics when `len(req) < len(midiCall)` (the copies
handed to `handleCmd` have capacity equal to their length), modelled as
`none`. -/
def handleCmd (req : List Nat) : Option Effects :=
  if req.length < midiCall.length then none
  else if req.take midiCall.length = midiCall then
    some (handleMidi (req.drop midiCall.length))
  else
    some ([LogEvent.notImplemented req], [])

end Main

namespace Part0

/-- `ToMidi` from `src/unnamed/part_000`, textually identical to the
`src/main.go` variant. -/
def ToMidi (req : List Nat) : Midi :=
  { State := req.getD 10 0 >>> 4
    Channel := req.getD 10 0 &&& 0x0f
    Note := req.getD 9 0
    Velocity := req.getD 8 0 }

/-- `handleBridgeIn` from `src/unnamed/part_000`: same logic as
`src/main.go`'s `handleMidi` (length guard, log, 3-byte write). -/
def handleBridgeIn (req : List Nat) : Effects :=
  if req.length ≠ 11 then ([], [])
  else ([LogEvent.midiNote (ToMidi req)],
        [[req.getD 10 0, req.getD 9 0, req.getD 8 0]])

/-- `handleCmd` from `src/unnamed/part_000`: same prefix dispatch as the
`src/main.go` variant, forwarding to `handleBridgeIn`; the same slice
expression panics on packets shorter than the prefix, modelled as
`none`. -/
def handleCmd (req : List Nat) : Option Effects :=
  if req.length < midiCall.length then none
  else if req.take midiCall.length = midiCall then
    some (handleBridgeIn (req.drop midiCall.length))
  else
    some ([LogEvent.notImplemented req], [])

end Part0

/-- One UDP receive in the `main` loop: the current contents of the reused
1024-byte buffer, the byte count `n` returned by `ReadFrom`, the sender
address (abstracted to a number), and the error returned by `ReadFrom`
(abstracted to an `Option` error code). -/
structure Recv where
  buf : List Nat
  n : Nat
  addr : Nat
  recvErr : Option Nat
deriving DecidableEq, Repr

/-- Log events of the receive loop: the "Received ... from ..." line and
the `log.Println(err)` line. -/
inductive NetEvent where
  | received (text : List Nat) (addr : Nat)
  | recvError (e : Nat)
deriving DecidableEq, Repr

/-- Log lines produced for one receive, in source order: `main` prints the
"Received" line first and only then checks `err`, logging it when
non-nil. -/
def recvLogs (r : Recv) : List NetEvent :=
  NetEvent.received (r.buf.take r.n) r.addr ::
    (match r.recvErr with
     | some e => [NetEvent.recvError e]
     | none => [])

/-- The receive loop of `main` (textually identical in both source files),
run over a finite prefix of receives: for each receive it logs, copies the
buffer with `bufCopy := make([]byte, n); copy(bufCopy, buf)` and spawns
`go bridge.handleCmd(bufCopy)`.  Returns the log events and the list of
packets handed to dispatch tasks, in receive order.  Every receive —
errored or not — reaches the copy and the spawn. -/
def mainLoop : List Recv → List NetEvent × List (List Nat)
  | [] => ([], [])
  | r :: rest =>
      (recvLogs r ++ (mainLoop rest).1, goCopy r.n r.buf :: (mainLoop rest).2)

/-- Result of one `m.MidiIn.Read(buf)` in the input-listening goroutine of
`src/unnamed/part_000`: either the bytes read or an error code. -/
inductive ReadRes where
  | ok (data : List Nat)
  | err (e : Nat)
deriving DecidableEq, Repr

namespace Part0

/-- The read loop inside `ListenMidiIn` of `src/unnamed/part_000`, run
over a finite prefix of read results: on a successful read the copied
chunk is forwarded to `handleDeviceIn`; on a read error the goroutine
calls `log.Fatal`, which terminates the whole process.  Returns the
chunks forwarded before termination and the fatal error code, if any;
reads after a fatal error are never performed. -/
def listenMidiIn : List ReadRes → List (List Nat) × Option Nat
  | [] => ([], none)
  | ReadRes.ok data :: rest =>
      (data :: (listenMidiIn rest).1, (listenMidiIn rest).2)
  | ReadRes.err e :: _ => ([], some e)

end Part0

/-- The 3-byte wire message `[]byte{req[10], req[9], req[8]}` that the
midi handler of either variant passes to `Write`. -/
def midiWrite (p : List Nat) : List Nat :=
  [p.getD 10 0, p.getD 9 0, p.getD 8 0]

/-- State of the output device under concurrent `Write` calls:
`pending` are the 3-byte messages of dispatch tasks that have not yet
acquired the bridge mutex, `holder` is the unwritten remainder of the
message whose task currently holds the mutex (`Write` locks `m.mu`, calls
`m.MidiOut.Write(data)`, then unlocks), and `stream` is the byte sequence
the device has received so far. -/
structure WState where
  pending : List (List Nat)
  holder : Option (List Nat)
  stream : List Nat

/-- Interleaving semantics of the mutex-guarded `Write`: a task may
acquire the free mutex with its whole message; the mutex holder emits its
bytes to the device one at a time (no other task can touch the device
while the mutex is held); a holder whose message is exhausted releases the
mutex.  Byte-level interleaving of two messages is impossible only
because acquisition is exclusive — exactly what `m.mu.Lock()` /
`m.mu.Unlock()` around `m.MidiOut.Write(data)` provides. -/
inductive WStep : WState → WState → Prop
  | acquire (l r : List (List Nat)) (msg stream : List Nat) :
      WStep ⟨l ++ msg :: r, none, stream⟩ ⟨l ++ r, some msg, stream⟩
  | emit (pending : List (List Nat)) (b : Nat) (rest stream : List Nat) :
      WStep ⟨pending, some (b :: rest), stream⟩
        ⟨pending, some rest, stream ++ [b]⟩
  | release (pending : List (List Nat)) (stream : List Nat) :
      WStep ⟨pending, some [], stream⟩ ⟨pending, none, stream⟩

/-- Reachability under any interleaving of `WStep`. -/
abbrev WReach : WState → WState → Prop := Relation.ReflTransGen WStep

end MidiBridge

namespace MidiBridge

/-- Claim C1: for every payload `p` of exactly 11 bytes, the midi payload
handler (both variants) writes to the output device exactly one message,
the 3 bytes `[p[10], p[9], p[8]]` in that order — the original combined
status/channel byte at offset 10, then the note byte, then the velocity
byte. -/
theorem C1_write_original_bytes (p : List Nat) (h : p.length = 11) :
    (Main.handleMidi p).2 = [[p.getD 10 0, p.getD 9 0, p.getD 8 0]] ∧
    (Part0.handleBridgeIn p).2 = [[p.getD 10 0, p.getD 9 0, p.getD 8 0]] := by
  constructor <;> simp [Main.handleMidi, Part0.handleBridgeIn, h]

/-- Witness for C1 at the concrete 11-byte payload ending in velocity 100,
note 60, combined byte 0x92. -/
theorem C1_write_original_bytes_witness :
    ([0, 0, 0, 0, 0, 0, 0, 0, 100, 60, 146] : List Nat).length = 11 ∧
    (Main.handleMidi [0, 0, 0, 0, 0, 0, 0, 0, 100, 60, 146]).2 =
      [[146, 60, 100]] :=
  ⟨by decide,
   (C1_write_original_bytes [0, 0, 0, 0, 0, 0, 0, 0, 100, 60, 146]
      (by decide)).1⟩

/-- Claim C2: for every 11-byte payload `p`, decode returns
`{State = p[10] >>> 4, Channel = p[10] &&& 0x0f, Note = p[9],
Velocity = p[8]}` in both variants; in particular, when the bytes at
offsets 10, 9, 8 are 0x92, 60, 100, decode yields `{9, 2, 60, 100}` and
the device write is exactly `[0x92, 60, 100]`. -/
theorem C2_decode_fields (p : List Nat) (h : p.length = 11) :
    Main.ToMidi p =
      ⟨p.getD 10 0 >>> 4, p.getD 10 0 &&& 0x0f, p.getD 9 0, p.getD 8 0⟩ ∧
    Part0.ToMidi p =
      ⟨p.getD 10 0 >>> 4, p.getD 10 0 &&& 0x0f, p.getD 9 0, p.getD 8 0⟩ ∧
    (p.getD 10 0 = 146 → p.getD 9 0 = 60 → p.getD 8 0 = 100 →
      Main.ToMidi p = ⟨9, 2, 60, 100⟩ ∧
      (Main.handleMidi p).2 = [[146, 60, 100]]) := by
  refine ⟨rfl, rfl, fun h10 h9 h8 => ⟨?_, ?_⟩⟩
  · show (⟨p.getD 10 0 >>> 4, p.getD 10 0 &&& 0x0f, p.getD 9 0,
        p.getD 8 0⟩ : Midi) = _
    rw [h10, h9, h8]; decide
  · show (if p.length ≠ 11 then (([], []) : Effects) else
      ([LogEvent.midiNote (Main.ToMidi p)],
        [[p.getD 10 0, p.getD 9 0, p.getD 8 0]])).2 = _
    rw [if_neg (by simp [h])]
    show [[p.getD 10 0, p.getD 9 0, p.getD 8 0]] = _
    rw [h10, h9, h8]

/-- Witness for C2 at the concrete payload with 0x92 at offset 10, 60 at
offset 9 and 100 at offset 8. -/
theorem C2_decode_fields_witness :
    ([0, 0, 0, 0, 0, 0, 0, 0, 100, 60, 146] : List Nat).length = 11 ∧
    Main.ToMidi [0, 0, 0, 0, 0, 0, 0, 0, 100, 60, 146] = ⟨9, 2, 60, 100⟩ :=
  ⟨by decide,
   ((C2_decode_fields [0, 0, 0, 0, 0, 0, 0, 0, 100, 60, 146]
      (by decide)).2.2 (by decide) (by decide) (by decide)).1⟩

/-- Claim C3: for every payload whose length is not exactly 11, the midi
payload handler of either variant is a silent no-op — no log event, no
device write, no error. -/
theorem C3_silent_drop (p : List Nat) (h : p.length ≠ 11) :
    Main.handleMidi p = ([], []) ∧ Part0.handleBridgeIn p = ([], []) := by
  constructor <;> simp [Main.handleMidi, Part0.handleBridgeIn, h]

/-- Witness for C3 at a 3-byte payload. -/
theorem C3_silent_drop_witness :
    ([1, 2, 3] : List Nat).length ≠ 11 ∧
    Main.handleMidi [1, 2, 3] = ([], []) :=
  ⟨by decide, (C3_silent_drop [1, 2, 3] (by decide)).1⟩

/-- Claim C4 counterexample: the claim's "for every other packet, the
dispatcher's only observable effect is a 'not implemented' report" fails
at the 1-byte packet `[47]` (`"/"`): the dispatcher faults (the Go slice
expression `req[:5]` panics), producing no report at all. -/
theorem C4_short_packet_no_report : Main.handleCmd [47] = none := by decide

/-- Claim C4 (amended): for every packet of length at least 5, if its
first 5 bytes equal `/midi` the dispatcher strips them and passes the
remainder to the midi payload handler, and otherwise its only observable
effect is a "not implemented" report with no device write; packets
shorter than 5 bytes instead make the dispatcher fault. -/
theorem C4_prefix_dispatch (req : List Nat)
    (h : midiCall.length ≤ req.length) :
    (req.take midiCall.length = midiCall →
      Main.handleCmd req = some (Main.handleMidi (req.drop midiCall.length)) ∧
      Part0.handleCmd req =
        some (Part0.handleBridgeIn (req.drop midiCall.length))) ∧
    (req.take midiCall.length ≠ midiCall →
      Main.handleCmd req = some ([LogEvent.notImplemented req], []) ∧
      Part0.handleCmd req = some ([LogEvent.notImplemented req], [])) := by
  constructor
  · intro hm
    constructor <;>
      simp [Main.handleCmd, Part0.handleCmd, Nat.not_lt.mpr h, hm]
  · intro hm
    constructor <;>
      simp [Main.handleCmd, Part0.handleCmd, Nat.not_lt.mpr h, hm]

/-- Witness for C4 at the matching packet `/midi` followed by one byte and
at a non-matching 5-byte packet. -/
theorem C4_prefix_dispatch_witness :
    Main.handleCmd [47, 109, 105, 100, 105, 1] =
      some (Main.handleMidi [1]) ∧
    Main.handleCmd [1, 2, 3, 4, 5] =
      some ([LogEvent.notImplemented [1, 2, 3, 4, 5]], []) :=
  ⟨((C4_prefix_dispatch [47, 109, 105, 100, 105, 1] (by decide)).1
      (by decide)).1,
   ((C4_prefix_dispatch [1, 2, 3, 4, 5] (by decide)).2 (by decide)).1⟩

/-- Claim C5: the packets shorter than the 5-byte prefix — the empty
packet and, e.g., the 4-byte packet `/mid` — make the dispatcher of
either variant fault instead of completing with a "not implemented"
report: the Go slice expression `req[:len(midiCall)]` indexes past the
packet's bounds and panics, which kills the process.  This contradicts
the claim's safety property; the guard `len(req) < len(midiCall)` the
default branch needs is missing from the source. -/
theorem C5_short_packet_faults :
    Part0.handleCmd [] = none ∧
    Part0.handleCmd [47, 109, 105, 100] = none ∧
    Main.handleCmd [] = none := by decide

/-- Claim C9: the two source-file variants implement the same core path —
decode, midi payload handling (including the silent drop of payloads
whose length is not 11 and the 3-byte device write) and prefix dispatch
agree on every input. -/
theorem C9_variant_equivalence :
    (∀ req, Main.ToMidi req = Part0.ToMidi req) ∧
    (∀ req, Main.handleMidi req = Part0.handleBridgeIn req) ∧
    (∀ req, Main.handleCmd req = Part0.handleCmd req) :=
  ⟨fun _ => rfl, fun _ => rfl, fun _ => rfl⟩

/-- Claim C7: whenever a read from the MIDI input device errors, the
input-listening loop of `src/unnamed/part_000` is fatal to the process at
that very read: the chunks forwarded are exactly those read before the
error, the fatal error is reported, and the reads after the error are
never performed (the result does not depend on `rest`). -/
theorem C7_read_error_fatal (chunks : List (List Nat)) (e : Nat)
    (rest : List ReadRes) :
    Part0.listenMidiIn (chunks.map ReadRes.ok ++ ReadRes.err e :: rest) =
      (chunks, some e) := by
  induction chunks with
  | nil => rfl
  | cons c cs ih => simp [Part0.listenMidiIn, ih]

/-- The receive loop dispatches one buffer copy per receive, in order. -/
theorem mainLoop_snd (rs : List Recv) :
    (mainLoop rs).2 = rs.map (fun r => goCopy r.n r.buf) := by
  induction rs with
  | nil => rfl
  | cons r rest ih => simp [mainLoop, ih]

/-- The receive loop's log is the concatenation of each receive's log
lines, in order. -/
theorem mainLoop_fst (rs : List Recv) :
    (mainLoop rs).1 = (rs.map recvLogs).flatten := by
  induction rs with
  | nil => rfl
  | cons r rest ih => simp [mainLoop, ih]

/-- When the byte count does not exceed the buffer length (always true in
the source, where `n ≤ 1024 = len(buf)`), the Go make-and-copy is the
`n`-byte prefix of the buffer. -/
theorem goCopy_of_le (n : Nat) (src : List Nat) (h : n ≤ src.length) :
    goCopy n src = src.take n := by
  simp [goCopy, Nat.sub_eq_zero_of_le h]

/-- Claim C8: a UDP receive error never terminates the receive loop —
wherever an errored receive occurs, the error is logged and every
receive, before and after it, still produces its dispatch (one dispatched
packet per receive, so the loop kept accepting packets after the
failure). -/
theorem C8_recv_error_continues (pre : List Recv) (r : Recv)
    (rest : List Recv) (e : Nat) (h : r.recvErr = some e) :
    NetEvent.recvError e ∈ (mainLoop (pre ++ r :: rest)).1 ∧
    (mainLoop (pre ++ r :: rest)).2 =
      (pre ++ r :: rest).map (fun q => goCopy q.n q.buf) ∧
    (mainLoop (pre ++ r :: rest)).2.length =
      pre.length + 1 + rest.length := by
  refine ⟨?_, mainLoop_snd _, ?_⟩
  · rw [mainLoop_fst]
    refine List.mem_flatten.mpr ⟨recvLogs r, ?_, ?_⟩
    · exact List.mem_map_of_mem recvLogs (by simp)
    · simp [recvLogs, h]
  · rw [mainLoop_snd]
    simp [Nat.add_comm, Nat.add_assoc, Nat.add_left_comm]

/-- Witness for C8: one errored receive followed by one clean receive;
the error is logged and both receives dispatch. -/
theorem C8_recv_error_continues_witness :
    NetEvent.recvError 7 ∈
      (mainLoop ([] ++ (⟨[9], 1, 0, some 7⟩ : Recv) :: [(⟨[8], 1, 0, none⟩ : Recv)])).1 ∧
    (mainLoop ([] ++ (⟨[9], 1, 0, some 7⟩ : Recv) :: [(⟨[8], 1, 0, none⟩ : Recv)])).2 =
      (([] ++ (⟨[9], 1, 0, some 7⟩ : Recv) :: [(⟨[8], 1, 0, none⟩ : Recv)]).map
        (fun q : Recv => goCopy q.n q.buf)) ∧
    (mainLoop ([] ++ (⟨[9], 1, 0, some 7⟩ : Recv) :: [(⟨[8], 1, 0, none⟩ : Recv)])).2.length =
      0 + 1 + 1 :=
  C8_recv_error_continues [] ⟨[9], 1, 0, some 7⟩ [(⟨[8], 1, 0, none⟩ : Recv)] 7 rfl

/-- Claim C10: an errored receive with byte count `n` still copies the
first `n` bytes of the buffer and spawns a dispatch task for the copy
(the error branch only logs, before the copy and spawn); with `n = 0`
the empty packet is dispatched. -/
theorem C10_error_still_dispatches (buf : List Nat) (n addr e : Nat)
    (rest : List Recv) (h : n ≤ buf.length) :
    (mainLoop (⟨buf, n, addr, some e⟩ :: rest)).2 =
      buf.take n :: (mainLoop rest).2 ∧
    NetEvent.recvError e ∈ (mainLoop (⟨buf, n, addr, some e⟩ :: rest)).1 ∧
    (n = 0 → (mainLoop (⟨buf, n, addr, some e⟩ :: rest)).2 =
      [] :: (mainLoop rest).2) := by
  have hcopy : goCopy n buf = buf.take n := goCopy_of_le n buf h
  refine ⟨?_, ?_, ?_⟩
  · simp [mainLoop, hcopy]
  · simp [mainLoop, recvLogs]
  · intro h0
    simp [mainLoop, goCopy, h0]

/-- Witness for C10: an errored receive with `n = 0` over a 2-byte stale
buffer dispatches the empty packet. -/
theorem C10_error_still_dispatches_witness :
    (mainLoop (⟨[5, 6], 0, 0, some 3⟩ :: [])).2 =
      ([5, 6] : List Nat).take 0 :: (mainLoop []).2 ∧
    NetEvent.recvError 3 ∈ (mainLoop (⟨[5, 6], 0, 0, some 3⟩ :: [])).1 ∧
    (0 = 0 → (mainLoop (⟨[5, 6], 0, 0, some 3⟩ :: [])).2 =
      [] :: (mainLoop []).2) :=
  C10_error_still_dispatches [5, 6] 0 0 3 [] (by decide)

/-- Invariant of the mutex-guarded write system: whatever interleaving
leads from a state `s` to the final state (no pending task, mutex free),
the device stream of the final state is `s`'s stream, then the unwritten
remainder of the current mutex holder, then the pending messages whole,
in some order.  In particular no two messages' bytes ever interleave. -/
theorem wreach_final_stream (final : List Nat) (s : WState)
    (h : WReach s ⟨[], none, final⟩) :
    ∃ σ : List (List Nat), σ.Perm s.pending ∧
      final = s.stream ++ s.holder.getD [] ++ σ.flatten := by
  induction h using Relation.ReflTransGen.head_induction_on with
  | refl => exact ⟨[], List.Perm.refl _, by simp⟩
  | head step tail ih =>
    obtain ⟨σ, hperm, heq⟩ := ih
    cases step with
    | acquire l r msg stream =>
      refine ⟨msg :: σ, (hperm.cons msg).trans List.perm_middle.symm, ?_⟩
      simpa [List.append_assoc] using heq
    | emit pending b rest stream =>
      refine ⟨σ, hperm, ?_⟩
      simpa [List.append_assoc] using heq
    | release pending stream =>
      exact ⟨σ, hperm, by simpa using heq⟩

/-- Claim C6: each `/midi` packet with a valid 11-byte payload `p` makes
its dispatch task submit exactly one 3-byte message `midiWrite p` to the
mutex-guarded `Write`; and for any number of such tasks running
concurrently, every complete interleaving delivers to the device a stream
that is the concatenation of those messages in some order — exactly
`payloads.length` writes of 3 bytes each, the bytes of each write
contiguous in the stream, the relative order of the writes
unconstrained. -/
theorem C6_concurrent_serialized_writes (payloads : List (List Nat))
    (h : ∀ p ∈ payloads, p.length = 11) :
    (∀ p ∈ payloads,
      Main.handleCmd (midiCall ++ p) =
        some ([LogEvent.midiNote (Main.ToMidi p)], [midiWrite p])) ∧
    (∀ stream,
      WReach ⟨payloads.map midiWrite, none, []⟩ ⟨[], none, stream⟩ →
      ∃ σ : List (List Nat), σ.Perm (payloads.map midiWrite) ∧
        stream = σ.flatten ∧
        σ.length = payloads.length ∧
        stream.length = 3 * payloads.length ∧
        ∀ p ∈ payloads, ∃ pre post,
          stream = pre ++ midiWrite p ++ post) := by
  constructor
  · intro p hp
    have h11 := h p hp
    have hlen : ¬((midiCall ++ p).length < midiCall.length) :=
      Nat.not_lt.mpr (by simp)
    rw [Main.handleCmd, if_neg hlen, if_pos (List.take_left midiCall p),
      List.drop_left, Main.handleMidi, if_neg (by simp [h11])]
    rfl
  · intro stream hreach
    obtain ⟨σ, hperm, heq⟩ := wreach_final_stream stream _ hreach
    simp only [Option.getD_none, List.nil_append] at heq
    have hσ3 : ∀ x ∈ σ, x.length = 3 := by
      intro x hx
      obtain ⟨p, _, rfl⟩ := List.mem_map.mp (hperm.mem_iff.mp hx)
      rfl
    have hσlen : σ.length = payloads.length :=
      hperm.length_eq.trans (List.length_map payloads midiWrite)
    refine ⟨σ, hperm, heq, hσlen, ?_, ?_⟩
    · have hrep : σ.map List.length = List.replicate σ.length 3 :=
        List.eq_replicate_iff.mpr
          ⟨List.length_map σ List.length,
           fun b hb => by
             obtain ⟨x, hx, rfl⟩ := List.mem_map.mp hb
             exact hσ3 x hx⟩
      rw [heq, List.length_flatten, hrep, List.sum_replicate, smul_eq_mul,
        hσlen, Nat.mul_comm]
    · intro p hp
      have hmem : midiWrite p ∈ σ :=
        hperm.mem_iff.mpr (List.mem_map_of_mem midiWrite hp)
      obtain ⟨s1, s2, rfl⟩ := List.append_of_mem hmem
      exact ⟨s1.flatten, s2.flatten, by
        simp [heq, List.flatten_append, List.append_assoc]⟩

/-- Witness for C6: one task with the concrete valid payload whose
message is `[0x92, 60, 100]`; the explicit execution acquires the mutex,
emits the three bytes and releases, and the delivered stream is exactly
that message. -/
theorem C6_concurrent_serialized_writes_witness :
    ∃ σ : List (List Nat),
      σ.Perm ([[0, 0, 0, 0, 0, 0, 0, 0, 100, 60, 146]].map midiWrite) ∧
      ([146, 60, 100] : List Nat) = σ.flatten ∧
      σ.length = 1 ∧
      ([146, 60, 100] : List Nat).length = 3 * 1 ∧
      ∀ p ∈ [[0, 0, 0, 0, 0, 0, 0, 0, 100, 60, 146]], ∃ pre post,
        ([146, 60, 100] : List Nat) = pre ++ midiWrite p ++ post := by
  have hreach :
      WReach ⟨[[146, 60, 100]], none, []⟩ ⟨[], none, [146, 60, 100]⟩ :=
    Relation.ReflTransGen.head (WStep.acquire [] [] [146, 60, 100] [])
      (Relation.ReflTransGen.head (WStep.emit [] 146 [60, 100] [])
        (Relation.ReflTransGen.head (WStep.emit [] 60 [100] [146])
          (Relation.ReflTransGen.head (WStep.emit [] 100 [] [146, 60])
            (Relation.ReflTransGen.head (WStep.release [] [146, 60, 100])
              Relation.ReflTransGen.refl))))
  exact (C6_concurrent_serialized_writes
    [[0, 0, 0, 0, 0, 0, 0, 0, 100, 60, 146]] (by decide)).2
    [146, 60, 100] hreach

end MidiBridge
